import Mathlib

/-!
Verification of the tolerant wire-decoding layer of the `rvk` crate:
the scalar normalizer (`src/objects/invariant_deserialize.rs`) and the
response-envelope resolution protocol (`src/api.rs`, `APIClient::call_method`).

The Rust code is shallowly embedded: `serde_json::Value` becomes the `Json`
inductive below, the serde visitors `ToNum<T>` / `ToStr` become total Lean
functions over `Json`, and the post-HTTP slice of `call_method` becomes
`resolve` / `resolveTraced`.
-/

namespace Rvk

/-- A JSON number as `serde_json` dispatches it to a visitor:
nonnegative integers take the `visit_u64` arm, negative integers take the
`visit_i64` arm, and any other numeric literal takes the `visit_f64` arm.
The float arm carries only its rendered decimal text (the `Display` form);
no claim depends on float arithmetic, and `ToNum` has no `visit_f64` at all. -/
inductive JNum where
  | uint (n : Nat)
  | sint (n : Int)
  | float (text : String)
deriving DecidableEq, Repr

/-- A JSON value tree, mirroring `serde_json::Value`. Objects are association
lists; serde maps have unique keys (last-wins at parse time), so key lookup is
first-match over the list. -/
inductive Json where
  | null
  | boolean (flag : Bool)
  | number (value : JNum)
  | string (text : String)
  | array (items : List Json)
  | object (entries : List (String × Json))

/-- First-match key lookup, the embedding of `Map::remove(key)`'s returned
value (the leftover map is only consulted for keys other than the removed
one, so plain lookup is adequate). -/
def lookupField (fields : List (String × Json)) (key : String) : Option Json :=
  match fields with
  | [] => none
  | (k, v) :: rest => if k = key then some v else lookupField rest key

/-! ### Decimal digits

Rust renders integers with `Display` (`{}`), i.e. an optional minus sign and
decimal digits, and parses them with `FromStr`. Both are modelled on
`List Char` so that the round-trip proof avoids `String` friction. -/

/-- The decimal digit character for `d < 10` (an explicit table so facts about
it are decidable case by case). -/
def digitChar (d : Nat) : Char :=
  match d with
  | 0 => '0' | 1 => '1' | 2 => '2' | 3 => '3' | 4 => '4'
  | 5 => '5' | 6 => '6' | 7 => '7' | 8 => '8' | _ => '9'

/-- Numeric value of an ASCII decimal digit, `none` for any other character. -/
def digitVal (c : Char) : Option Nat :=
  if 48 ≤ c.toNat ∧ c.toNat ≤ 57 then some (c.toNat - 48) else none

/-- Decimal digit characters of `n`, most significant first, by structural
recursion on a fuel bound (so the kernel can evaluate it); any `fuel > n`
gives the digits of `n`. -/
def natToDigitsAux : Nat → Nat → List Char
  | 0, _ => []
  | fuel + 1, n =>
    if n < 10 then [digitChar n]
    else natToDigitsAux fuel (n / 10) ++ [digitChar (n % 10)]

/-- Decimal digit characters of `n`, most significant first. -/
def natToDigits (n : Nat) : List Char := natToDigitsAux (n + 1) n

/-- Rust's `Display` for a (signed) integer: optional minus sign, then the
decimal digits of the absolute value. -/
def intRepr (n : Int) : String :=
  if n < 0 then ⟨'-' :: natToDigits n.natAbs⟩ else ⟨natToDigits n.natAbs⟩

/-- Horner evaluation of a digit run on top of an accumulator; fails on the
first non-digit character. This is the loop inside Rust's integer `FromStr`
(overflow there is checked per step against the type's bounds; acceptance is
equivalent to computing the exact value and range-checking it at the end). -/
def parseDigitsAcc (cs : List Char) (acc : Nat) : Option Nat :=
  match cs with
  | [] => some acc
  | c :: rest =>
    match digitVal c with
    | some d => parseDigitsAcc rest (acc * 10 + d)
    | none => none

/-- A nonempty all-digit run's value (`FromStr` rejects an empty digit part). -/
def parseDigits (cs : List Char) : Option Nat :=
  match cs with
  | [] => none
  | _ => parseDigitsAcc cs 0

/-- Rust's integer `FromStr` for a fixed-width target with range
`[lo, hi]`: an optional sign (a minus sign is only accepted by signed
targets, i.e. those with `lo < 0`; unsigned `from_str` rejects a leading
minus outright), then one or more decimal digits, and the resulting value
must lie in the target's range — otherwise the parse errors (Rust's
`InvalidDigit` / `PosOverflow` / `NegOverflow`, all collapsed to `none`). -/
def parseIntChars (lo hi : Int) (cs : List Char) : Option Int :=
  let inRange : Int → Option Int := fun n =>
    if lo ≤ n ∧ n ≤ hi then some n else none
  match cs with
  | [] => none
  | c :: rest =>
    if c = '-' then
      if lo < 0 then
        match parseDigits rest with
        | some v => inRange (-(v : Int))
        | none => none
      else none
    else if c = '+' then
      match parseDigits rest with
      | some v => inRange (v : Int)
      | none => none
    else
      match parseDigits (c :: rest) with
      | some v => inRange (v : Int)
      | none => none

/-- `parseIntChars` on the string's characters. -/
def parseIntStr (lo hi : Int) (s : String) : Option Int :=
  parseIntChars lo hi s.data

/-- The canonical `serde_json` encoding of the integer `n` as a native JSON
number: nonnegative values parse into the unsigned arm, negative values into
the signed arm. -/
def encodeNum (n : Int) : Json :=
  if 0 ≤ n then .number (.uint n.toNat) else .number (.sint n)

/-! ### Target integer types

`ToNum<T>` is generic over `T: FromStr + FromPrimitive`; the repository
instantiates it at Rust's fixed-width signed integers (`i64`, `i16`). A
target is modelled by its range and its `type_name`. -/

/-- A fixed-width Rust integer target type: its `type_name::<T>()` text and
its value range. `FromPrimitive::from_u64` / `from_i64` succeed exactly on
values in `[lo, hi]`; `FromStr` accepts a leading minus sign iff `lo < 0`. -/
structure IntTy where
  name : String
  lo : Int
  hi : Int

def i64ty : IntTy := ⟨"i64", -(2 ^ 63), 2 ^ 63 - 1⟩

def i16ty : IntTy := ⟨"i16", -(2 ^ 15), 2 ^ 15 - 1⟩

/-! ### serde errors -/

/-- `serde::de::Unexpected`: the offending input, as serde tags it. -/
inductive Unexpected where
  | string (s : String)
  | unsigned (n : Nat)
  | signed (n : Int)
  | float (text : String)
  | other (kind : String)
deriving DecidableEq, Repr

/-- A structural decode error, as the serde visitors produce it: the
`invalid_value` / `invalid_type` constructors carry the offending input and
the visitor's `expecting` text; `custom` covers the remaining error forms. -/
inductive DecErr where
  | invalidValue (got : Unexpected) (expecting : String)
  | invalidType (got : Unexpected) (expecting : String)
  | custom (msg : String)
deriving DecidableEq, Repr

/-- The `expecting` text of `ToNum<T>`'s visitor (its `write!` format with
`type_name::<T>()` substituted). -/
def ToNum.expecting (t : IntTy) : String :=
  "a string representing legal " ++ t.name ++ " value or a value of "
    ++ t.name ++ " itself"

/-- `ToNum::<T>::deserialize` driven by a `serde_json` value, i.e.
`deserialize_any` dispatching on the node kind into the visitor:
`visit_str` parses the string via `FromStr`; `visit_u64` / `visit_i64`
succeed via `FromPrimitive` exactly when the value is representable; every
other node kind hits the serde `Visitor` defaults, which error with
`invalid_type`. -/
def ToNum.deserialize (t : IntTy) : Json → Except DecErr Int
  | .string s =>
    match parseIntStr t.lo t.hi s with
    | some v => .ok v
    | none => .error (.invalidValue (.string s) (ToNum.expecting t))
  | .number (.uint n) =>
    if t.lo ≤ (n : Int) ∧ (n : Int) ≤ t.hi then .ok (n : Int)
    else .error (.invalidValue (.unsigned n) (ToNum.expecting t))
  | .number (.sint n) =>
    if t.lo ≤ n ∧ n ≤ t.hi then .ok n
    else .error (.invalidValue (.signed n) (ToNum.expecting t))
  | .number (.float f) => .error (.invalidType (.float f) (ToNum.expecting t))
  | .null => .error (.invalidType (.other "unit") (ToNum.expecting t))
  | .boolean b =>
    .error (.invalidType (.other (if b then "boolean true" else "boolean false"))
      (ToNum.expecting t))
  | .array _ => .error (.invalidType (.other "sequence") (ToNum.expecting t))
  | .object _ => .error (.invalidType (.other "map") (ToNum.expecting t))

/-- `ToNum::<T>::deserialize_opt`: the source applies
`.map_or(Ok(None), |v| Ok(Some(v)))` to the result of `deserialize_any`,
which maps an `Err` to `Ok(None)` and an `Ok(v)` to `Ok(Some(v))`. -/
def ToNum.deserialize_opt (t : IntTy) (j : Json) : Except DecErr (Option Int) :=
  match ToNum.deserialize t j with
  | .ok v => .ok (some v)
  | .error _ => .ok none

/-- `ToStr::deserialize` driven by a `serde_json` value: strings pass
verbatim, the three numeric arms are rendered with `format!` (the float arm
carries its rendered text already), and the remaining node kinds hit the
serde `Visitor` defaults, which error. -/
def ToStr.deserialize : Json → Except DecErr String
  | .string s => .ok s
  | .number (.uint n) => .ok (intRepr (n : Int))
  | .number (.sint n) => .ok (intRepr n)
  | .number (.float f) => .ok f
  | .null => .error (.invalidType (.other "unit") "a string or a value of type that implements ToString")
  | .boolean b =>
    .error (.invalidType (.other (if b then "boolean true" else "boolean false"))
      "a string or a value of type that implements ToString")
  | .array _ => .error (.invalidType (.other "sequence") "a string or a value of type that implements ToString")
  | .object _ => .error (.invalidType (.other "map") "a string or a value of type that implements ToString")

/-- `ToStr::deserialize_opt`: the same `.map_or(Ok(None), |s| Ok(Some(s)))`
shape as `ToNum::deserialize_opt`. -/
def ToStr.deserialize_opt (j : Json) : Except DecErr (Option String) :=
  match ToStr.deserialize j with
  | .ok s => .ok (some s)
  | .error _ => .ok none

/-- Decoding an optional numeric struct field annotated
`#[serde(default, deserialize_with = "ToNum::<T>::deserialize_opt")]`:
when the field is missing serde never calls the hook and `#[serde(default)]`
supplies `None`; when present, `deserialize_opt` runs on the field's value. -/
def decodeOptNumField (t : IntTy) (field : Option Json) : Except DecErr (Option Int) :=
  match field with
  | none => .ok none
  | some j => ToNum.deserialize_opt t j

/-- Decoding an optional string struct field annotated
`#[serde(default, deserialize_with = "ToStr::deserialize_opt")]`. -/
def decodeOptStrField (field : Option Json) : Except DecErr (Option String) :=
  match field with
  | none => .ok none
  | some j => ToStr.deserialize_opt j

/-! ### The envelope resolver

`APIClient::call_method` (src/api.rs), after the transport step has produced
a `serde_json::Value`: require an object, try the `response` key (the spec's
`payload`), else the `error` key (the spec's `fault`), else fail. -/

/-- Modelled from the spec: the `Fault` record (`crate::error::APIError`,
whose defining module `src/error.rs` is not in the sources) —
`{ code: integer, message: string }` plus optional remediation fields that
are opaque pass-through data, not validated by this layer. -/
structure Fault where
  code : Int
  message : String
deriving DecidableEq, Repr

/-- Modelled from the spec: the structural decode of a `fault` value into the
`Fault` record — `code` must be a JSON integer, `message` a JSON string, and
any extra fields are ignored (opaque pass-through). -/
def decodeFault : Json → Except DecErr Fault
  | .object fields =>
    match lookupField fields "code" with
    | some (.number (.uint n)) => decodeFaultMessage fields ((n : Int))
    | some (.number (.sint n)) => decodeFaultMessage fields n
    | some _ => .error (.custom "invalid type for field code")
    | none => .error (.custom "missing field code")
  | _ => .error (.custom "invalid type: expected struct Fault")
where
  decodeFaultMessage (fields : List (String × Json)) (code : Int) :
      Except DecErr Fault :=
    match lookupField fields "message" with
    | some (.string s) => .ok ⟨code, s⟩
    | some _ => .error (.custom "invalid type for field message")
    | none => .error (.custom "missing field message")

/-- Modelled from the spec: the `CallError` taxonomy of §7 (the crate's
`error::Error` enum lives in `src/error.rs`, which is not in the sources).
`malformedEnvelope` carries the source's message text; `payloadDecodeError`
carries the target's type name and the underlying structural cause;
`domainError` carries the decoded `Fault`; `faultDecodeError` is the
propagation of a failed `fault` decode (the `?` on `from_value::<APIError>`
in the source). -/
inductive CallError where
  | malformedEnvelope (msg : String)
  | payloadDecodeError (typeName : String) (cause : DecErr)
  | domainError (fault : Fault)
  | faultDecodeError (cause : DecErr)
deriving DecidableEq, Repr

/-- The source's message for a non-object response document. -/
def notObjectMsg : String := "API response is not an object!"

/-- The source's message for an object with neither branch key. -/
def neitherKeyMsg : String := "The API responded with neither a response nor an error!"

/-- The envelope-resolution slice of `APIClient::call_method`
(src/api.rs lines 104-131), generic over the caller's target type `T` just
as `call_method` is: `typeName` stands for `type_name::<T>()` and `dec` for
`serde_json::from_value::<T>`. Steps: require an object; if a `response`
key is present decode it with `dec` (success is the result, failure is a
payload decode error); else if an `error` key is present decode it as a
`Fault` and fail with a domain error; else fail with a malformed envelope. -/
def resolve {T : Type} (typeName : String) (dec : Json → Except DecErr T)
    (raw : Json) : Except CallError T :=
  match raw with
  | .object fields =>
    match lookupField fields "response" with
    | some ok =>
      match dec ok with
      | .ok v => .ok v
      | .error e => .error (.payloadDecodeError typeName e)
    | none =>
      match lookupField fields "error" with
      | some errVal =>
        match decodeFault errVal with
        | .ok f => .error (.domainError f)
        | .error e => .error (.faultDecodeError e)
      | none => .error (.malformedEnvelope neitherKeyMsg)
  | _ => .error (.malformedEnvelope notObjectMsg)

/-! ### The diagnostic trace (feature `trace_response`)

`value.to_string()`, the `trace` module of src/api.rs, and the trace calls
inside `call_method`, modelled as pure functions that accumulate the file
writes and log lines they would perform. Sink availability (directory
creation, file writes) and the environment variables are explicit inputs. -/

/-- JSON string escaping as `serde_json` renders it: quote, backslash and
control characters are escaped, everything else passes through. (Control
characters with a low nibble ≥ 10 would use hex letters; the decimal digit
table suffices here since no claim inspects the rendered text.) -/
def escapeChar (c : Char) : String :=
  if c = '"' then "\\\""
  else if c = '\\' then "\\\\"
  else if c = '\n' then "\\n"
  else if c = '\r' then "\\r"
  else if c = '\t' then "\\t"
  else if c.toNat < 32 then
    "\\u00" ++ ⟨[digitChar (c.toNat / 16), digitChar (c.toNat % 16)]⟩
  else ⟨[c]⟩

/-- A rendered JSON string literal: the escaped characters between quotes. -/
def renderStr (s : String) : String :=
  s.data.foldl (fun out c => out ++ escapeChar c) "\"" ++ "\""

mutual

/-- `serde_json`'s compact `Value::to_string()` (`response_copy` in the
source): no whitespace, fields comma-separated. -/
def Json.render : Json → String
  | .null => "null"
  | .boolean true => "true"
  | .boolean false => "false"
  | .number (.uint n) => intRepr (n : Int)
  | .number (.sint n) => intRepr n
  | .number (.float text) => text
  | .string s => renderStr s
  | .array elems => "[" ++ Json.renderElems elems ++ "]"
  | .object fields => "\x7b" ++ Json.renderFields fields ++ "\x7d"

def Json.renderElems : List Json → String
  | [] => ""
  | [j] => Json.render j
  | j :: rest => Json.render j ++ "," ++ Json.renderElems rest

def Json.renderFields : List (String × Json) → String
  | [] => ""
  | [(k, v)] => renderStr k ++ ":" ++ Json.render v
  | (k, v) :: rest => renderStr k ++ ":" ++ Json.render v ++ "," ++ Json.renderFields rest

end

/-- `serde`'s `Display` for `Unexpected`. -/
def Unexpected.render : Unexpected → String
  | .string s => "string " ++ renderStr s
  | .unsigned n => "integer `" ++ intRepr (n : Int) ++ "`"
  | .signed n => "integer `" ++ intRepr n ++ "`"
  | .float text => "floating point `" ++ text ++ "`"
  | .other kind => kind

/-- `serde_json`'s `Display` for a decode error (`format!` on the error in
the source's trace call). -/
def DecErr.render : DecErr → String
  | .invalidValue got expecting => "invalid value: " ++ got.render ++ ", expected " ++ expecting
  | .invalidType got expecting => "invalid type: " ++ got.render ++ ", expected " ++ expecting
  | .custom msg => msg

/-- The process environment and sink availability that the trace module
consults: `RVK_TRACE_DIR`, `HOME`, `RVK_TRACE_ALL`, the formatted local
timestamp, and whether `create_dir_all` / `fs::write` succeed per path. -/
structure TraceEnv where
  rvkTraceDir : Option String
  home : Option String
  rvkTraceAll : Option String
  timestamp : String
  dirOk : String → Bool
  writeOk : String → Bool

/-- An observable side effect of the trace module: a file write or a log
line. Log lines never reach the caller of `call_method`. -/
inductive TraceEvent where
  | logError (msg : String)
  | logDebug (msg : String)
  | wrote (path : String) (content : String)
deriving DecidableEq, Repr

/-- `trace::try_trace_response`: choose the directory from `RVK_TRACE_DIR`
(falling back to `$HOME/.cache/rvk`, then `./.cache/rvk`), append the
outcome subdirectory, create it (on failure log and return), then write the
response to a timestamped `.json` file and, when the error message is
nonempty, the message to a `_msg.txt` file — each write logged, failures
swallowed. The function returns only its effect trace (Rust type `()`). -/
def try_trace_response (env : TraceEnv) (subdir response errorMessage : String) :
    List TraceEvent :=
  let base := env.rvkTraceDir.getD ((env.home.getD ".") ++ "/.cache/rvk")
  let dir := base ++ subdir
  if ¬ env.dirOk dir then
    [.logError ("failed to create directory to trace response " ++ dir)]
  else
    let stamped := dir ++ "/" ++ env.timestamp
    let jsonPath := stamped ++ ".json"
    let first :=
      if env.writeOk jsonPath then
        [.wrote jsonPath response, .logDebug ("write response into file " ++ jsonPath)]
      else [.logError ("failed to write file " ++ jsonPath)]
    let second :=
      if errorMessage ≠ "" then
        let msgPath := stamped ++ "_msg.txt"
        if env.writeOk msgPath then
          [.wrote msgPath errorMessage, .logDebug ("write problem message into file " ++ msgPath)]
        else [.logError ("failed to write file " ++ msgPath)]
      else []
    first ++ second

/-- `trace::try_trace_failed_response`. -/
def try_trace_failed_response (env : TraceEnv) (response errorMessage : String) :
    List TraceEvent :=
  try_trace_response env "/failed" response errorMessage

/-- `trace::try_trace_succeeded_response`. -/
def try_trace_succeeded_response (env : TraceEnv) (response : String) :
    List TraceEvent :=
  try_trace_response env "/succeeded" response ""

/-- The same `call_method` slice as `resolve`, with the `trace_response`
feature's code included: `traceOn` is the compile-time feature gate,
`env` the process environment and sink availability. Returns the caller's
result paired with the trace effects; in the source the trace calls return
`()` and `Ok(res?)` is computed from `res` alone, so the effects are kept
separate by construction. -/
def resolveTraced {T : Type} (traceOn : Bool) (env : TraceEnv) (typeName : String)
    (dec : Json → Except DecErr T) (raw : Json) :
    Except CallError T × List TraceEvent :=
  let response_copy := Json.render raw
  match raw with
  | .object fields =>
    match lookupField fields "response" with
    | some ok =>
      let res := dec ok
      let events :=
        if traceOn then
          match res with
          | .error e => try_trace_failed_response env response_copy (DecErr.render e)
          | .ok _ =>
            if env.rvkTraceAll = some "1" then
              try_trace_succeeded_response env response_copy
            else []
        else []
      (match res with
       | .ok v => .ok v
       | .error e => .error (.payloadDecodeError typeName e), events)
    | none =>
      match lookupField fields "error" with
      | some errVal =>
        (match decodeFault errVal with
         | .ok f => .error (.domainError f)
         | .error e => .error (.faultDecodeError e), [])
      | none => (.error (.malformedEnvelope neitherKeyMsg), [])
  | _ => (.error (.malformedEnvelope notObjectMsg), [])

/-! ### Decimal round-trip lemmas -/

theorem digitVal_digitChar : ∀ d : Nat, d < 10 → digitVal (digitChar d) = some d := by
  decide

theorem digitChar_ne_minus : ∀ d : Nat, d < 10 → digitChar d ≠ '-' := by
  decide

theorem digitChar_ne_plus : ∀ d : Nat, d < 10 → digitChar d ≠ '+' := by
  decide

theorem parseDigitsAcc_append (xs ys : List Char) (acc : Nat) :
    parseDigitsAcc (xs ++ ys) acc =
      match parseDigitsAcc xs acc with
      | some m => parseDigitsAcc ys m
      | none => none := by
  induction xs generalizing acc with
  | nil => rfl
  | cons c rest ih =>
    simp only [List.cons_append, parseDigitsAcc]
    cases h : digitVal c with
    | some d => exact ih _
    | none => rfl

theorem natToDigitsAux_parse (fuel : Nat) :
    ∀ n, n < fuel → ∀ acc, ∃ k,
      parseDigitsAcc (natToDigitsAux fuel n) acc = some (acc * 10 ^ k + n) := by
  induction fuel with
  | zero => intro n h; omega
  | succ fuel ih =>
    intro n h acc
    by_cases h10 : n < 10
    · refine ⟨1, ?_⟩
      simp only [natToDigitsAux, if_pos h10, parseDigitsAcc,
        digitVal_digitChar n h10]
      norm_num
    · have hdiv : n / 10 < fuel := by
        have := Nat.div_lt_self (by omega : 0 < n) (by omega : 1 < 10)
        omega
      obtain ⟨k, hk⟩ := ih (n / 10) hdiv acc
      refine ⟨k + 1, ?_⟩
      simp only [natToDigitsAux, if_neg h10]
      rw [parseDigitsAcc_append, hk]
      simp only [parseDigitsAcc, digitVal_digitChar (n % 10) (Nat.mod_lt n (by omega))]
      congr 1
      have hmod : 10 * (n / 10) + n % 10 = n := Nat.div_add_mod n 10
      calc (acc * 10 ^ k + n / 10) * 10 + n % 10
          = acc * (10 ^ k * 10) + (10 * (n / 10) + n % 10) := by ring
        _ = acc * 10 ^ (k + 1) + n := by rw [hmod, pow_succ]

theorem natToDigitsAux_head (fuel : Nat) :
    ∀ n, n < fuel → ∃ d rest, natToDigitsAux fuel n = digitChar d :: rest ∧ d < 10 := by
  induction fuel with
  | zero => intro n h; omega
  | succ fuel ih =>
    intro n h
    by_cases h10 : n < 10
    · exact ⟨n, [], by simp [natToDigitsAux, if_pos h10], h10⟩
    · have hdiv : n / 10 < fuel := by
        have := Nat.div_lt_self (by omega : 0 < n) (by omega : 1 < 10)
        omega
      obtain ⟨d, rest, hcons, hd⟩ := ih (n / 10) hdiv
      exact ⟨d, rest ++ [digitChar (n % 10)],
        by simp [natToDigitsAux, if_neg h10, hcons], hd⟩

theorem parseDigits_natToDigits (n : Nat) : parseDigits (natToDigits n) = some n := by
  obtain ⟨d, rest, hcons, _⟩ := natToDigitsAux_head (n + 1) n (by omega)
  obtain ⟨k, hk⟩ := natToDigitsAux_parse (n + 1) n (by omega) 0
  have hcons' : natToDigits n = digitChar d :: rest := hcons
  have hk' : parseDigitsAcc (natToDigits n) 0 = some (0 * 10 ^ k + n) := hk
  rw [hcons'] at hk' ⊢
  simpa [parseDigits] using hk'

theorem parseIntChars_intRepr (lo hi n : Int) (h1 : lo ≤ n) (h2 : n ≤ hi) :
    parseIntChars lo hi (intRepr n).data = some n := by
  by_cases hn : n < 0
  · have hlo : lo < 0 := lt_of_le_of_lt h1 hn
    have hdata : (intRepr n).data = '-' :: natToDigits n.natAbs := by
      simp [intRepr, if_pos hn]
    rw [hdata]
    simp only [parseIntChars, if_pos rfl, if_pos hlo, parseDigits_natToDigits]
    have habs : ((n.natAbs : Int)) = -n := Int.ofNat_natAbs_of_nonpos (le_of_lt hn)
    rw [habs]
    simp [h1, h2]
  · push_neg at hn
    have hdata : (intRepr n).data = natToDigits n.natAbs := by
      simp [intRepr, if_neg (not_lt.mpr hn)]
    obtain ⟨d, rest, hcons, hd⟩ := natToDigitsAux_head (n.natAbs + 1) n.natAbs (by omega)
    have hcons' : natToDigits n.natAbs = digitChar d :: rest := hcons
    rw [hdata, hcons']
    simp only [parseIntChars, if_neg (digitChar_ne_minus d hd),
      if_neg (digitChar_ne_plus d hd)]
    rw [← hcons', parseDigits_natToDigits]
    have habs : ((n.natAbs : Int)) = n := Int.natAbs_of_nonneg hn
    show (if lo ≤ ((n.natAbs : Int)) ∧ ((n.natAbs : Int)) ≤ hi then
        some ((n.natAbs : Int)) else none) = some n
    rw [habs]
    simp [h1, h2]

theorem parseDigitsAcc_none_of_nondigit {c : Char} (hd : digitVal c = none) :
    ∀ cs acc, c ∈ cs → parseDigitsAcc cs acc = none := by
  intro cs
  induction cs with
  | nil => intro acc h; cases h
  | cons x rest ih =>
    intro acc h
    rcases List.mem_cons.mp h with heq | hmem
    · subst heq
      simp only [parseDigitsAcc, hd]
    · cases hx : digitVal x with
      | some d => simpa only [parseDigitsAcc, hx] using ih _ hmem
      | none => simp only [parseDigitsAcc, hx]

theorem parseDigits_none_of_nondigit {c : Char} (hd : digitVal c = none)
    {cs : List Char} (hmem : c ∈ cs) : parseDigits cs = none := by
  cases cs with
  | nil => cases hmem
  | cons x rest => simpa [parseDigits] using parseDigitsAcc_none_of_nondigit hd _ 0 hmem

theorem parseIntChars_none_of_dot (lo hi : Int) :
    ∀ cs, '.' ∈ cs → parseIntChars lo hi cs = none := by
  have hdot : digitVal '.' = none := by decide
  intro cs hmem
  cases cs with
  | nil => cases hmem
  | cons c rest =>
    by_cases hminus : c = '-'
    · subst hminus
      have hrest : '.' ∈ rest := by
        rcases List.mem_cons.mp hmem with heq | h
        · exact absurd heq.symm (by decide)
        · exact h
      simp [parseIntChars, parseDigits_none_of_nondigit hdot hrest]
    · by_cases hplus : c = '+'
      · subst hplus
        have hrest : '.' ∈ rest := by
          rcases List.mem_cons.mp hmem with heq | h
          · exact absurd heq.symm (by decide)
          · exact h
        simp [parseIntChars, parseDigits_none_of_nondigit hdot hrest]
      · simp only [parseIntChars, if_neg hminus, if_neg hplus,
          parseDigits_none_of_nondigit hdot hmem]

/-! ### The claims -/

/-- Claim C1: for every JSON object whose `response` value decodes
successfully into the caller's target type `T`, `resolve` yields `Ok`
carrying exactly the value of that direct structural decode. -/
theorem c1_payload_success {T : Type} (typeName : String)
    (dec : Json → Except DecErr T) (fields : List (String × Json))
    (inner : Json) (v : T)
    (hresp : lookupField fields "response" = some inner)
    (hdec : dec inner = .ok v) :
    resolve typeName dec (.object fields) = .ok v := by
  simp [resolve, hresp, hdec]

theorem c1_witness :
    lookupField [("response", Json.number (.uint 5))] "response" = some (.number (.uint 5)) ∧
    ToNum.deserialize i64ty (.number (.uint 5)) = .ok 5 ∧
    resolve "i64" (ToNum.deserialize i64ty)
      (.object [("response", .number (.uint 5))]) = .ok 5 :=
  ⟨rfl, rfl, c1_payload_success "i64" (ToNum.deserialize i64ty) _ _ 5 rfl rfl⟩

/-- Claim C2, as stated, is false on the code: `deserialize_opt` applies
`.map_or(Ok(None), |v| Ok(Some(v)))`, which swallows the error of a present
but malformed field into `Ok(None)`. Here the field is present with the
fractional string `"123.0"` (malformed for an `i64` target), yet the result
is the absent value, not an error; likewise `ToStr::deserialize_opt` on a
present boolean. -/
theorem c2_counterexample :
    decodeOptNumField i64ty (some (.string "123.0")) = .ok none ∧
    decodeOptStrField (some (.boolean true)) = .ok none :=
  ⟨rfl, rfl⟩

/-- Claim C2 amended: `deserialize_opt` maps a missing field to the absent
result, a present well-formed field to its normalized value, and a present
malformed field again to the absent result — it never returns an error. -/
theorem c2_amended_optional_never_errors (t : IntTy) (field : Option Json) :
    decodeOptNumField t field =
      .ok (field.bind fun j => (ToNum.deserialize t j).toOption) ∧
    decodeOptStrField field =
      .ok (field.bind fun j => (ToStr.deserialize j).toOption) := by
  constructor
  · cases field with
    | none => rfl
    | some j =>
      cases h : ToNum.deserialize t j <;>
        simp [decodeOptNumField, ToNum.deserialize_opt, h, Except.toOption]
  · cases field with
    | none => rfl
    | some j =>
      cases h : ToStr.deserialize j <;>
        simp [decodeOptStrField, ToStr.deserialize_opt, h, Except.toOption]

/-- Claim C3: for every integer `n` representable in the target type, the
native JSON number encoding of `n` and the JSON string holding `n`'s decimal
text both normalize successfully to `n`. -/
theorem c3_number_string_equivalence (t : IntTy) (n : Int)
    (h1 : t.lo ≤ n) (h2 : n ≤ t.hi) :
    ToNum.deserialize t (encodeNum n) = .ok n ∧
    ToNum.deserialize t (.string (intRepr n)) = .ok n := by
  constructor
  · unfold encodeNum
    by_cases hn : 0 ≤ n
    · rw [if_pos hn]
      have ht : ((n.toNat : Int)) = n := Int.toNat_of_nonneg hn
      simp [ToNum.deserialize, ht, h1, h2]
    · rw [if_neg hn]
      simp [ToNum.deserialize, h1, h2]
  · simp [ToNum.deserialize, parseIntStr, parseIntChars_intRepr t.lo t.hi n h1 h2]

theorem c3_witness :
    i64ty.lo ≤ -123 ∧ (-123 : Int) ≤ i64ty.hi ∧
    (ToNum.deserialize i64ty (encodeNum (-123)) = .ok (-123) ∧
     ToNum.deserialize i64ty (.string (intRepr (-123))) = .ok (-123)) :=
  ⟨by decide, by decide, c3_number_string_equivalence i64ty (-123) (by decide) (by decide)⟩

/-- Claim C4: for an integer target, a floating-point JSON number is always
rejected (no `visit_f64` in `ToNum`, so the serde visitor default errors),
any JSON string containing a `.` (a fractional component) is rejected, and
the unparseable string `"-+"` is rejected — never truncated to a value. -/
theorem c4_reject_fractional (t : IntTy) (ftext : String) (s : String)
    (hdot : '.' ∈ s.data) :
    ToNum.deserialize t (.number (.float ftext)) =
      .error (.invalidType (.float ftext) (ToNum.expecting t)) ∧
    ToNum.deserialize t (.string s) =
      .error (.invalidValue (.string s) (ToNum.expecting t)) ∧
    ToNum.deserialize t (.string "-+") =
      .error (.invalidValue (.string "-+") (ToNum.expecting t)) := by
  refine ⟨rfl, ?_, ?_⟩
  · simp [ToNum.deserialize, parseIntStr,
      parseIntChars_none_of_dot t.lo t.hi s.data hdot]
  · have hplus : parseDigits ['+'] = none := by decide
    have hdata : ("-+" : String).data = ['-', '+'] := rfl
    have hnone : parseIntStr t.lo t.hi "-+" = none := by
      rw [parseIntStr, hdata]
      by_cases h : t.lo < 0 <;> simp [parseIntChars, hplus, h]
    simp [ToNum.deserialize, hnone]

theorem c4_witness :
    '.' ∈ ("123.0" : String).data ∧
    (ToNum.deserialize i64ty (.number (.float "123.0")) =
       .error (.invalidType (.float "123.0") (ToNum.expecting i64ty)) ∧
     ToNum.deserialize i64ty (.string "123.0") =
       .error (.invalidValue (.string "123.0") (ToNum.expecting i64ty)) ∧
     ToNum.deserialize i64ty (.string "-+") =
       .error (.invalidValue (.string "-+") (ToNum.expecting i64ty))) :=
  ⟨by decide, c4_reject_fractional i64ty "123.0" "123.0" (by decide)⟩

/-- Claim C5: a native JSON integer (either the unsigned or the signed
visitor arm) normalizes to exactly that integer when it lies in the target's
range, and errors otherwise — never a wrapped or truncated value. -/
theorem c5_exact_integer_range (t : IntTy) (u : Nat) (i : Int) :
    (t.lo ≤ (u : Int) ∧ (u : Int) ≤ t.hi →
      ToNum.deserialize t (.number (.uint u)) = .ok (u : Int)) ∧
    (¬(t.lo ≤ (u : Int) ∧ (u : Int) ≤ t.hi) →
      ToNum.deserialize t (.number (.uint u)) =
        .error (.invalidValue (.unsigned u) (ToNum.expecting t))) ∧
    (t.lo ≤ i ∧ i ≤ t.hi →
      ToNum.deserialize t (.number (.sint i)) = .ok i) ∧
    (¬(t.lo ≤ i ∧ i ≤ t.hi) →
      ToNum.deserialize t (.number (.sint i)) =
        .error (.invalidValue (.signed i) (ToNum.expecting t))) := by
  refine ⟨fun h => ?_, fun h => ?_, fun h => ?_, fun h => ?_⟩ <;>
    simp [ToNum.deserialize, h]

theorem c5_witness :
    ToNum.deserialize i16ty (.number (.uint 123)) = .ok 123 ∧
    ToNum.deserialize i16ty (.number (.uint 40000)) =
      .error (.invalidValue (.unsigned 40000) (ToNum.expecting i16ty)) ∧
    ToNum.deserialize i16ty (.number (.sint (-123))) = .ok (-123) ∧
    ToNum.deserialize i16ty (.number (.sint (-40000))) =
      .error (.invalidValue (.signed (-40000)) (ToNum.expecting i16ty)) :=
  ⟨(c5_exact_integer_range i16ty 123 (-123)).1 (by decide),
   (c5_exact_integer_range i16ty 40000 (-123)).2.1 (by decide),
   (c5_exact_integer_range i16ty 123 (-123)).2.2.1 (by decide),
   (c5_exact_integer_range i16ty 123 (-40000)).2.2.2 (by decide)⟩

/-- Claim C6: a JSON object without a `response` key whose `error` key
decodes as a `Fault` makes `resolve` fail with a domain error carrying the
remote-reported code and message. -/
theorem c6_fault_domain_error {T : Type} (typeName : String)
    (dec : Json → Except DecErr T) (fields : List (String × Json))
    (errVal : Json) (f : Fault)
    (hresp : lookupField fields "response" = none)
    (herr : lookupField fields "error" = some errVal)
    (hf : decodeFault errVal = .ok f) :
    resolve typeName dec (.object fields) = .error (.domainError f) := by
  simp [resolve, hresp, herr, hf]

theorem c6_witness :
    decodeFault (.object [("code", .number (.uint 15)), ("message", .string "Access denied")]) =
      .ok ⟨15, "Access denied"⟩ ∧
    resolve "i64" (ToNum.deserialize i64ty)
      (.object [("error", .object [("code", .number (.uint 15)), ("message", .string "Access denied")])]) =
      .error (.domainError ⟨15, "Access denied"⟩) :=
  ⟨rfl, c6_fault_domain_error "i64" (ToNum.deserialize i64ty) _ _ _ rfl rfl rfl⟩

/-- Claim C7: a non-object document, and an object with neither a `response`
nor an `error` key, both make `resolve` fail with a malformed-envelope error
(with the source's respective message texts) — never a default value. -/
theorem c7_malformed_envelope {T : Type} (typeName : String)
    (dec : Json → Except DecErr T) (raw : Json) (fields : List (String × Json))
    (hraw : ∀ fs, raw ≠ .object fs)
    (hresp : lookupField fields "response" = none)
    (herr : lookupField fields "error" = none) :
    resolve typeName dec raw = .error (.malformedEnvelope notObjectMsg) ∧
    resolve typeName dec (.object fields) = .error (.malformedEnvelope neitherKeyMsg) := by
  constructor
  · cases raw <;> try rfl
    exact absurd rfl (hraw _)
  · simp [resolve, hresp, herr]

theorem c7_witness :
    resolve "i64" (ToNum.deserialize i64ty) (.array []) =
      .error (.malformedEnvelope notObjectMsg) ∧
    resolve "i64" (ToNum.deserialize i64ty) (.object []) =
      .error (.malformedEnvelope neitherKeyMsg) :=
  c7_malformed_envelope "i64" (ToNum.deserialize i64ty) (.array []) []
    (fun _ h => Json.noConfusion h) rfl rfl

/-- Claim C8: a `response` value that fails to decode into the caller's
target type makes `resolve` fail with a payload decode error carrying the
target's type name and the underlying structural cause. -/
theorem c8_payload_decode_error {T : Type} (typeName : String)
    (dec : Json → Except DecErr T) (fields : List (String × Json))
    (inner : Json) (e : DecErr)
    (hresp : lookupField fields "response" = some inner)
    (hdec : dec inner = .error e) :
    resolve typeName dec (.object fields) = .error (.payloadDecodeError typeName e) := by
  simp [resolve, hresp, hdec]

theorem c8_witness :
    ToNum.deserialize i64ty (.object [("unexpected_shape", .boolean true)]) =
      .error (.invalidType (.other "map") (ToNum.expecting i64ty)) ∧
    resolve "i64" (ToNum.deserialize i64ty)
      (.object [("response", .object [("unexpected_shape", .boolean true)])]) =
      .error (.payloadDecodeError "i64"
        (.invalidType (.other "map") (ToNum.expecting i64ty))) :=
  ⟨rfl, c8_payload_decode_error "i64" (ToNum.deserialize i64ty) _ _ _ rfl rfl⟩

/-- Claim C9: the caller-visible outcome of resolution is the same whatever
the trace feature gate, trace configuration, and trace-sink availability —
the result component of `resolveTraced` equals `resolve` for every
environment, so two runs differing only in trace state agree, and a trace
write failure is never propagated. -/
theorem c9_trace_independence {T : Type} (traceOn traceOn' : Bool)
    (env env' : TraceEnv) (typeName : String) (dec : Json → Except DecErr T)
    (raw : Json) :
    (resolveTraced traceOn env typeName dec raw).1 = resolve typeName dec raw ∧
    (resolveTraced traceOn env typeName dec raw).1 =
      (resolveTraced traceOn' env' typeName dec raw).1 := by
  have key : ∀ (b : Bool) (en : TraceEnv),
      (resolveTraced b en typeName dec raw).1 = resolve typeName dec raw := by
    intro b en
    cases raw with
    | object fields =>
      cases hresp : lookupField fields "response" with
      | some okv =>
        cases hdec : dec okv <;> simp [resolveTraced, resolve, hresp, hdec]
      | none =>
        cases herr : lookupField fields "error" with
        | some errVal =>
          cases hf : decodeFault errVal <;>
            simp [resolveTraced, resolve, hresp, herr, hf]
        | none => simp [resolveTraced, resolve, hresp, herr]
    | null => rfl
    | boolean b => rfl
    | number n => rfl
    | string s => rfl
    | array es => rfl
  exact ⟨key traceOn env, (key traceOn env).trans (key traceOn' env').symm⟩

/-- Claim C10: when both a `response` and an `error` key are present,
`resolve` takes the payload branch and never consults the fault: a decodable
payload gives `Ok`, a failing payload gives the payload decode error, and
the result is never a domain error built from the co-present fault. -/
theorem c10_payload_branch_priority {T : Type} (typeName : String)
    (dec : Json → Except DecErr T) (fields : List (String × Json))
    (inner errVal : Json)
    (hresp : lookupField fields "response" = some inner)
    (_herr : lookupField fields "error" = some errVal) :
    (∀ v, dec inner = .ok v → resolve typeName dec (.object fields) = .ok v) ∧
    (∀ e, dec inner = .error e →
      resolve typeName dec (.object fields) = .error (.payloadDecodeError typeName e)) ∧
    (∀ f, resolve typeName dec (.object fields) ≠ .error (.domainError f)) := by
  refine ⟨fun v hv => by simp [resolve, hresp, hv],
          fun e he => by simp [resolve, hresp, he],
          fun f hcontra => ?_⟩
  cases hdec : dec inner with
  | ok v => simp [resolve, hresp, hdec] at hcontra
  | error e => simp [resolve, hresp, hdec] at hcontra

theorem c10_witness :
    resolve "i64" (ToNum.deserialize i64ty)
      (.object [("response", .number (.uint 7)),
             ("error", .object [("code", .number (.uint 15)), ("message", .string "Access denied")])]) =
      .ok 7 ∧
    ∀ f, resolve "i64" (ToNum.deserialize i64ty)
      (.object [("response", .number (.uint 7)),
             ("error", .object [("code", .number (.uint 15)), ("message", .string "Access denied")])]) ≠
      .error (.domainError f) :=
  ⟨(c10_payload_branch_priority "i64" (ToNum.deserialize i64ty)
      [("response", .number (.uint 7)),
       ("error", .object [("code", .number (.uint 15)), ("message", .string "Access denied")])]
      (.number (.uint 7))
      (.object [("code", .number (.uint 15)), ("message", .string "Access denied")])
      rfl rfl).1 7 rfl,
   (c10_payload_branch_priority "i64" (ToNum.deserialize i64ty)
      [("response", .number (.uint 7)),
       ("error", .object [("code", .number (.uint 15)), ("message", .string "Access denied")])]
      (.number (.uint 7))
      (.object [("code", .number (.uint 15)), ("message", .string "Access denied")])
      rfl rfl).2.2⟩

end Rvk
